import Mathlib

/-!
Verification of the infolegAI scraping and merge pipeline
(`src/dataset/src/dataset/infoleg_scraper.py` and
`src/dataset/src/dataset/defs/assets.py`).

The Python code is shallowly embedded: pure string processing becomes
functions on `List Char`; network and warehouse effects become explicit
oracles (the outcome of each external call is a parameter) together with
event traces; machine integers carry no arithmetic here, so `Nat`/`Int`
are used directly.  Character classes of the regexes (`\d`, `[A-Za-z]`,
`[A-Z]`) are modelled over ASCII, which is what every input reasoned
about below contains.
-/

set_option maxRecDepth 10000

namespace InfolegAI

/-! ### Characters and digits -/

/-- Numeric value of an ASCII digit character (`int(c)` on one digit). -/
def digitVal (c : Char) : Nat := c.toNat - 48

/-- Model of the regex class `\d` (ASCII digits). -/
def isAsciiDigit (c : Char) : Bool := decide (48 ≤ c.toNat ∧ c.toNat ≤ 57)

/-- Model of the regex class `[A-Za-z]`. -/
def isAsciiAlpha (c : Char) : Bool :=
  decide ((65 ≤ c.toNat ∧ c.toNat ≤ 90) ∨ (97 ≤ c.toNat ∧ c.toNat ≤ 122))

/-- Model of the regex class `[A-Z]`. -/
def isAsciiUpper (c : Char) : Bool := decide (65 ≤ c.toNat ∧ c.toNat ≤ 90)

/-- Python's `str.upper()` restricted to ASCII (the dash-date regex only
lets `[A-Za-z]` through, so this is the only case that can occur). -/
def upperC (c : Char) : Char :=
  if 97 ≤ c.toNat ∧ c.toNat ≤ 122 then Char.ofNat (c.toNat - 32) else c

/-- Digit character for `n < 10`. -/
def dChar (n : Nat) : Char := Char.ofNat (48 + n)

/-- Two-digit zero-padded rendering (glibc `strftime` `%d` / `%m`, and the
`DD`/`MM` shape of the spec's date formats). -/
def pad2 (n : Nat) : List Char := [dChar (n / 10), dChar (n % 10)]

/-- Four-digit zero-padded rendering (the `YYYY` shape). -/
def pad4 (n : Nat) : List Char :=
  [dChar (n / 1000), dChar (n / 100 % 10), dChar (n / 10 % 10), dChar (n % 10)]

/-- Fuel-driven unpadded decimal rendering; `natChars` supplies enough
fuel that the zero-fuel fallback is never reached. -/
def natCharsAux : Nat → Nat → List Char
  | 0, n => [dChar n]
  | fuel + 1, n =>
      if n < 10 then [dChar n] else natCharsAux fuel (n / 10) ++ [dChar (n % 10)]

/-- Unpadded decimal rendering of a natural number, as produced by the
platform `strftime` for `%Y` (CPython delegates `%Y` to the C library,
which does not zero-pad the year). -/
def natChars (n : Nat) : List Char := natCharsAux n n

/-- Characters removed by Python's `str.strip()` (ASCII whitespace; the
unicode additions never occur in the strings reasoned about here). -/
def isPySpace (c : Char) : Bool :=
  decide (c.toNat = 32 ∨ c.toNat = 9 ∨ c.toNat = 10 ∨ c.toNat = 13 ∨
          c.toNat = 11 ∨ c.toNat = 12)

/-- Python `str.strip()`: drop leading and trailing whitespace. -/
def pyStrip (l : List Char) : List Char :=
  ((l.dropWhile isPySpace).reverse.dropWhile isPySpace).reverse

/-! ### `convert_date_format` (infoleg_scraper.py lines 43-94)

`datetime.strptime(s, "%d/%m/%Y")` compiles (CPython `_strptime`) to the
anchored regex `(3[01]|[12]\d|0[1-9]|[1-9]) / (1[0-2]|0[1-9]|[1-9]) /
(\d\d\d\d)` which must consume the whole string, followed by
construction of a `datetime` (which validates the day against the month
and requires year ≥ 1).  The two-digit day alternatives cover exactly
the digit pairs with value 1..31, and the two-digit month alternatives
exactly the pairs with value 1..12, so the alternation is modelled by a
value test.  Committed choice coincides with regex backtracking here:
every two-digit alternative forces the second character to be a digit,
while the continuation after a one-digit match demands `/`, so at most
one alternative can lead to an overall match. -/

/-- One field of the strptime regex: two-digit value in `1..bound`,
else a single nonzero digit (`%d` with `bound = 31`, `%m` with 12). -/
def parse2or1 (bound : Nat) : List Char → Option (Nat × List Char)
  | c1 :: c2 :: rest =>
      if isAsciiDigit c1 ∧ isAsciiDigit c2 ∧
         1 ≤ 10 * digitVal c1 + digitVal c2 ∧ 10 * digitVal c1 + digitVal c2 ≤ bound then
        some (10 * digitVal c1 + digitVal c2, rest)
      else if isAsciiDigit c1 ∧ 1 ≤ digitVal c1 then
        some (digitVal c1, c2 :: rest)
      else none
  | [c1] =>
      if isAsciiDigit c1 ∧ 1 ≤ digitVal c1 then some (digitVal c1, []) else none
  | [] => none

/-- The `%d` field. -/
def parse_d : List Char → Option (Nat × List Char) := parse2or1 31

/-- The `%m` field. -/
def parse_m : List Char → Option (Nat × List Char) := parse2or1 12

/-- The `%Y` field: exactly four digits. -/
def parse_Y : List Char → Option (Nat × List Char)
  | y1 :: y2 :: y3 :: y4 :: rest =>
      if isAsciiDigit y1 ∧ isAsciiDigit y2 ∧ isAsciiDigit y3 ∧ isAsciiDigit y4 then
        some (1000 * digitVal y1 + 100 * digitVal y2 + 10 * digitVal y3 + digitVal y4, rest)
      else none
  | _ => none

/-- Full `strptime(s, "%d/%m/%Y")` regex phase, including the
whole-string-consumed check done by `_strptime`. -/
def strptime_dmY (t : List Char) : Option (Nat × Nat × Nat) :=
  match parse_d t with
  | none => none
  | some (d, r1) =>
    match r1 with
    | [] => none
    | s1 :: r2 =>
      if s1 = '/' then
        match parse_m r2 with
        | none => none
        | some (m, r3) =>
          match r3 with
          | [] => none
          | s2 :: r4 =>
            if s2 = '/' then
              match parse_Y r4 with
              | some (y, []) => some (d, m, y)
              | _ => none
            else none
      else none

/-- Proleptic-Gregorian leap year, as in `datetime`. -/
def isLeap (y : Nat) : Bool := (y % 4 = 0 && y % 100 ≠ 0) || y % 400 = 0

/-- Days in a month, as validated by the `datetime` constructor. -/
def daysInMonth (y m : Nat) : Nat :=
  if m = 2 then (if isLeap y then 29 else 28)
  else if m = 4 ∨ m = 6 ∨ m = 9 ∨ m = 11 then 30
  else 31

/-- `datetime.strptime(s, "%d/%m/%Y")` success: regex phase plus the
`datetime(year, month, day)` validation (year ≥ 1, day within month).
A `ValueError` from either phase is the `none` case. -/
def slashDate (t : List Char) : Option (Nat × Nat × Nat) :=
  match strptime_dmY t with
  | some (d, m, y) => if 1 ≤ y ∧ d ≤ daysInMonth y m then some (d, m, y) else none
  | none => none

/-- `dt.strftime("%Y-%m-%d")`: unpadded year (platform behavior),
zero-padded month and day. -/
def strftime_Ymd (y m d : Nat) : String :=
  String.mk (natChars y ++ '-' :: pad2 m ++ '-' :: pad2 d)

/-- The `month_map` dict of `convert_date_format` (all 24 keys of the
source; only the uppercase ones are reachable after `.upper()`). -/
def month_map : List Char → Option (List Char)
  | ['E', 'N', 'E'] => some ['0', '1']
  | ['F', 'E', 'B'] => some ['0', '2']
  | ['M', 'A', 'R'] => some ['0', '3']
  | ['A', 'B', 'R'] => some ['0', '4']
  | ['M', 'A', 'Y'] => some ['0', '5']
  | ['J', 'U', 'N'] => some ['0', '6']
  | ['J', 'U', 'L'] => some ['0', '7']
  | ['A', 'G', 'O'] => some ['0', '8']
  | ['S', 'E', 'P'] => some ['0', '9']
  | ['O', 'C', 'T'] => some ['1', '0']
  | ['N', 'O', 'V'] => some ['1', '1']
  | ['D', 'I', 'C'] => some ['1', '2']
  | ['e', 'n', 'e'] => some ['0', '1']
  | ['f', 'e', 'b'] => some ['0', '2']
  | ['m', 'a', 'r'] => some ['0', '3']
  | ['a', 'b', 'r'] => some ['0', '4']
  | ['m', 'a', 'y'] => some ['0', '5']
  | ['j', 'u', 'n'] => some ['0', '6']
  | ['j', 'u', 'l'] => some ['0', '7']
  | ['a', 'g', 'o'] => some ['0', '8']
  | ['s', 'e', 'p'] => some ['0', '9']
  | ['o', 'c', 't'] => some ['1', '0']
  | ['n', 'o', 'v'] => some ['1', '1']
  | ['d', 'i', 'c'] => some ['1', '2']
  | _ => none

/-- The `re.match(r"(\d{2})-([A-Za-z]{3})-(\d{4})", t)` branch of
`convert_date_format`: anchored at the start only (trailing characters
are ignored), groups are kept as raw text, and the output is
`f"{year}-{month}-{day}"` with the day group passed through unvalidated. -/
def dashBranch (t : List Char) : Option String :=
  match t with
  | d1 :: d2 :: h1 :: a :: b :: c :: h2 :: y1 :: y2 :: y3 :: y4 :: _rest =>
      if h1 = '-' ∧ h2 = '-' ∧ isAsciiDigit d1 ∧ isAsciiDigit d2 ∧
         isAsciiAlpha a ∧ isAsciiAlpha b ∧ isAsciiAlpha c ∧
         isAsciiDigit y1 ∧ isAsciiDigit y2 ∧ isAsciiDigit y3 ∧ isAsciiDigit y4 then
        match month_map [upperC a, upperC b, upperC c] with
        | some mon => some (String.mk ([y1, y2, y3, y4] ++ '-' :: mon ++ '-' :: [d1, d2]))
        | none => none
      else none
  | _ => none

/-- Body of `convert_date_format` on the character list of the input:
empty-string early return, then the stripped input goes through the
slash parse and, on `ValueError`, the dash regex. -/
def convertCore (l : List Char) : Option String :=
  if l.isEmpty then none
  else
    match slashDate (pyStrip l) with
    | some (d, m, y) => some (strftime_Ymd y m d)
    | none => dashBranch (pyStrip l)

/-- `InfolegClient.convert_date_format` (infoleg_scraper.py lines 43-94). -/
def convert_date_format (s : String) : Option String := convertCore s.data

/-! ### Spec-side definitions for claim C2 (from the spec's words, for
comparison with the code-side `convert_date_format`). -/

/-- Spec-side: `(y, m, d)` is a valid calendar date. -/
def spec_validDate (y m d : Nat) : Bool :=
  decide (1 ≤ y ∧ 1 ≤ m ∧ m ≤ 12 ∧ 1 ≤ d ∧ d ≤ daysInMonth y m)

/-- Spec-side: the input is a valid date written exactly as `DD/MM/YYYY`,
or exactly as `DD-MMM-YYYY` with a Spanish three-letter month
abbreviation in any letter case. -/
def spec_isValidDateInput (s : String) : Bool :=
  match s.data with
  | [d1, d2, s1, m1, m2, s2, y1, y2, y3, y4] =>
      decide (s1 = '/') && decide (s2 = '/') &&
      isAsciiDigit d1 && isAsciiDigit d2 && isAsciiDigit m1 && isAsciiDigit m2 &&
      isAsciiDigit y1 && isAsciiDigit y2 && isAsciiDigit y3 && isAsciiDigit y4 &&
      spec_validDate
        (1000 * digitVal y1 + 100 * digitVal y2 + 10 * digitVal y3 + digitVal y4)
        (10 * digitVal m1 + digitVal m2)
        (10 * digitVal d1 + digitVal d2)
  | [d1, d2, h1, a, b, c, h2, y1, y2, y3, y4] =>
      decide (h1 = '-') && decide (h2 = '-') &&
      isAsciiDigit d1 && isAsciiDigit d2 &&
      isAsciiAlpha a && isAsciiAlpha b && isAsciiAlpha c &&
      isAsciiDigit y1 && isAsciiDigit y2 && isAsciiDigit y3 && isAsciiDigit y4 &&
      (match month_map [upperC a, upperC b, upperC c] with
       | some mon =>
          spec_validDate
            (1000 * digitVal y1 + 100 * digitVal y2 + 10 * digitVal y3 + digitVal y4)
            (10 * digitVal (mon.headD '0') + digitVal (mon.getLastD '0'))
            (10 * digitVal d1 + digitVal d2)
       | none => false)
  | _ => false

/-! ### Dedupe-and-load (`master_to_bigquery`, assets.py lines 179-190)
and the append stage (`master_daily_merge`, assets.py lines 117-147).

The master CSV is modelled at the row level.  `id_norma` is the dedupe
key; the remaining 16 columns are carried as `titulo_resumido` (named in
the claims) plus an opaque remainder. -/

/-- One row of the master dataset (17-column schema of `assets.py`,
keyed by `id_norma`; the columns other than the two the claims mention
are collapsed into `resto`). -/
structure MasterRow where
  id_norma : Int
  titulo_resumido : String
  resto : List String
deriving DecidableEq, Repr

/-- `polars .unique(subset=["id_norma"], keep="last")`: a row survives
precisely when no later row has the same `id_norma`. -/
def unique_keep_last : List MasterRow → List MasterRow
  | [] => []
  | r :: rest =>
      if rest.any (fun x => x.id_norma == r.id_norma) then unique_keep_last rest
      else r :: unique_keep_last rest

/-- The append stage `master_daily_merge`: the day's rows (header
stripped) are appended to the master file. -/
def master_daily_merge (master batch : List MasterRow) : List MasterRow :=
  master ++ batch

/-! ### Batched concurrent fetcher (`scrape_by_date`,
infoleg_scraper.py lines 410-498).

The loop is embedded as a trace of effects: a `batch` event is one
`asyncio.gather` over the accumulated tasks followed by the flush of the
dict results (in task order) to the CSV writer; a `sleep` event is the
`asyncio.sleep(delay)` rate limit.  `f id` is the outcome of
`scrape_norma_by_id` for `id`: `none` when the page 404s or any
exception is caught (lines 400-408 catch every exception and return
`None`; `gather(..., return_exceptions=True)` isolates failures, and
only `dict` results are written). -/

/-- One observable effect of the fetch loop. -/
inductive FetchEv where
  | batch (g : List Nat) (flushed : List MasterRow)
  | sleep (d : ℚ)
deriving DecidableEq, Repr

/-- The `for i, norma_id in enumerate(all_norma_ids)` loop of
`scrape_by_date`, with its trailing `if tasks:` remainder gather.
Arguments: remaining ids, index `i` of the current id, `N` the total
count, and the accumulated `tasks` of the current group. -/
def scrapeLoop (W : Nat) (D : ℚ) (f : Nat → Option MasterRow) :
    List Nat → Nat → Nat → List Nat → List FetchEv
  | [], _i, _N, tasks =>
      if tasks.isEmpty then [] else [FetchEv.batch tasks (tasks.filterMap f)]
  | id :: rest, i, N, tasks =>
      if W ≤ (tasks ++ [id]).length then
        FetchEv.batch (tasks ++ [id]) ((tasks ++ [id]).filterMap f) ::
          (if i < N - 1 then FetchEv.sleep D :: scrapeLoop W D f rest (i + 1) N []
           else scrapeLoop W D f rest (i + 1) N [])
      else scrapeLoop W D f rest (i + 1) N (tasks ++ [id])

/-- Records flushed by one event. -/
def evFlushed : FetchEv → List MasterRow
  | FetchEv.batch _ fl => fl
  | FetchEv.sleep _ => []

/-- `scrape_by_date`: the effect trace of the loop over the (already
truncated to `daily_scrape_count`) id list, together with the returned
`total_scraped` (the number of records written). -/
def scrape_by_date (W : Nat) (D : ℚ) (f : Nat → Option MasterRow) (ids : List Nat) :
    List FetchEv × Nat :=
  let tr := scrapeLoop W D f ids 0 ids.length []
  (tr, ((tr.map evFlushed).flatten).length)

/-- Index-free restatement of the loop, with the sleep condition
`i < N - 1` replaced by `rest` being nonempty (they coincide under the
loop invariant `N = i + 1 + rest.length`). -/
def scrapeLoopIF (W : Nat) (D : ℚ) (f : Nat → Option MasterRow) :
    List Nat → List Nat → List FetchEv
  | [], tasks =>
      if tasks.isEmpty then [] else [FetchEv.batch tasks (tasks.filterMap f)]
  | id :: rest, tasks =>
      if W ≤ (tasks ++ [id]).length then
        FetchEv.batch (tasks ++ [id]) ((tasks ++ [id]).filterMap f) ::
          (if rest.isEmpty then scrapeLoopIF W D f rest []
           else FetchEv.sleep D :: scrapeLoopIF W D f rest [])
      else scrapeLoopIF W D f rest (tasks ++ [id])

/-- Closed form of `scrapeLoopIF` for a partially accumulated group
`tasks` (with `tasks.length < W`) followed by the ids `l`. -/
def ifSpec (W : Nat) (D : ℚ) (f : Nat → Option MasterRow) (tasks l : List Nat) :
    List FetchEv :=
  if tasks.length + l.length ≤ W then
    (if (tasks ++ l).isEmpty then []
     else [FetchEv.batch (tasks ++ l) ((tasks ++ l).filterMap f)])
  else
    FetchEv.batch (tasks ++ l.take (W - tasks.length))
        ((tasks ++ l.take (W - tasks.length)).filterMap f) ::
      FetchEv.sleep D :: scrapeLoopIF W D f (l.drop (W - tasks.length)) []

/-- Spec-side: the consecutive groups of size `W` (last group shorter)
that the claims describe. -/
def chunksW (W : Nat) : List Nat → List (List Nat)
  | [] => []
  | x :: xs => (x :: xs.take (W - 1)) :: chunksW W (xs.drop (W - 1))
termination_by l => l.length
decreasing_by
  simp only [List.length_drop, List.length_cons]
  omega

/-- Spec-side: the trace the claims describe — one batch per group, a
sleep between consecutive groups and none after the last. -/
def canonicalTrace (D : ℚ) (f : Nat → Option MasterRow) : List (List Nat) → List FetchEv
  | [] => []
  | [g] => [FetchEv.batch g (g.filterMap f)]
  | g :: g2 :: gs =>
      FetchEv.batch g (g.filterMap f) :: FetchEv.sleep D ::
        canonicalTrace D f (g2 :: gs)

/-! ### The fetcher's caller (`scrape_boletin_and_archive`,
assets.py lines 78-107). -/

/-- Outcome of the asset: either the `LookupError` raised on a zero
count (before any upload), or the GCS archive step with its blob name. -/
inductive AssetOutcome where
  | raisedLookup (msg : String)
  | archived (blobName : String)
deriving DecidableEq, Repr

/-- `scrape_boletin_and_archive` after `scrape_by_date` returned
`scrapedCount`: raise on zero, otherwise upload
`daily_scrapes/normas_<date>.csv`. -/
def scrape_boletin_and_archive (date : String) (scrapedCount : Nat) : AssetOutcome :=
  if scrapedCount = 0 then
    AssetOutcome.raisedLookup "[No normas extracted. Response might need inspection."
  else
    AssetOutcome.archived ("daily_scrapes/normas_" ++ date ++ ".csv")

/-! ### Bulletin search (`search_boletines`,
infoleg_scraper.py lines 96-182). -/

/-- `strptime(s, "%Y-%m-%d")`: four-digit year, dash, month, dash, day,
whole string consumed, then `datetime` validation.  Returns
`(year, month, day)`. -/
def strptime_Ymd (t : List Char) : Option (Nat × Nat × Nat) :=
  match parse_Y t with
  | none => none
  | some (y, r1) =>
    match r1 with
    | [] => none
    | s1 :: r2 =>
      if s1 = '-' then
        match parse_m r2 with
        | none => none
        | some (m, r3) =>
          match r3 with
          | [] => none
          | s2 :: r4 =>
            if s2 = '-' then
              match parse_d r4 with
              | some (d, []) =>
                  if 1 ≤ y ∧ d ≤ daysInMonth y m then some (y, m, d) else none
              | _ => none
            else none
      else none

/-- The parsed search-results page: the id of each anchor matched by
`find_all("a", href=re.compile(r"verNorma\.do.*\?id=\d+"))` (in document
order, the first `?id=` group of each href), and whether the response
text contains each of the two "no results" phrases. -/
structure BoletinPage where
  anchorIds : List Nat
  hasNoSeEncontraron : Bool
  hasSinResultados : Bool

/-- Outcome of the `client.post` + `raise_for_status` pair. -/
inductive HttpResult where
  | ok (page : BoletinPage)
  | httpStatusError
  | requestError

/-- Network effect of the search. -/
inductive NetEv where
  | post (dia mes anio : Nat)
deriving DecidableEq, Repr

/-- What `search_boletines` does from its caller's point of view. -/
inductive SearchOutcome where
  | returned (ids : List Nat)
  | valueErrorRaised
deriving DecidableEq, Repr

/-- The first-appearance dedupe of the extraction loop
(`if norma_id not in norma_ids: norma_ids.append(norma_id)`). -/
def dedupFirstSeen (l : List Nat) : List Nat :=
  l.foldl (fun acc id => if id ∈ acc then acc else acc ++ [id]) []

/-- `search_boletines` (lines 96-182).  `strptime` runs before the
`try`, so a malformed date raises `ValueError` with no request issued.
Inside the `try`, HTTP-status and request errors return `[]`; an empty
extraction with a "no results" phrase logs and returns `[]`; an empty
extraction without such a phrase raises `LookupError` at line 162, but
that exception is caught by the function's own `except Exception`
handler at line 180, which also returns `[]`. -/
def search_boletines (boletin_fecha : String) (resp : HttpResult) :
    List NetEv × SearchOutcome :=
  match strptime_Ymd boletin_fecha.data with
  | none => ([], SearchOutcome.valueErrorRaised)
  | some (y, m, d) =>
      ([NetEv.post d m y],
        match resp with
        | HttpResult.httpStatusError => SearchOutcome.returned []
        | HttpResult.requestError => SearchOutcome.returned []
        | HttpResult.ok page =>
            let norma_ids := dedupFirstSeen page.anchorIds
            if norma_ids.isEmpty then
              if page.hasNoSeEncontraron || page.hasSinResultados then
                SearchOutcome.returned norma_ids
              else
                SearchOutcome.returned []
            else SearchOutcome.returned norma_ids)

/-! ### Embeddings merge (`master_daily_embeddings_merge`,
assets.py lines 362-427). -/

/-- One staging-table row (the columns the MERGE reads). -/
structure StageRow where
  id_norma : Int
  content : String
  title : String
deriving DecidableEq, Repr

/-- One row of `master_embeddings` (statistics/status columns are
folded into the embedding payload). -/
structure EmbRow where
  id_norma : Int
  embedding : List Int
  content : String
  title : String
deriving DecidableEq, Repr

/-- The `GeneratedEmbeddings` CTE: embed every staging row, keep rows
with `ARRAY_LENGTH(ml_generate_embedding_result) > 0`. -/
def generatedEmbeddings (embedFn : StageRow → List Int) (staging : List StageRow) :
    List EmbRow :=
  (staging.map (fun r => EmbRow.mk r.id_norma (embedFn r) r.content r.title)).filter
    (fun g => ¬ g.embedding.isEmpty)

/-- The `MERGE INTO master_embeddings` statement: matched target rows
are updated to the source values (every non-key column is listed in the
UPDATE, and the key is equal, so the row becomes the source row);
unmatched source rows are inserted. -/
def mergeInto (master gen : List EmbRow) : List EmbRow :=
  (master.map fun t =>
    match gen.find? (fun g => g.id_norma == t.id_norma) with
    | some g => g
    | none => t) ++
  gen.filter (fun g => master.all (fun t => ¬ t.id_norma == g.id_norma))

/-- The two warehouse tables the asset touches. -/
structure WarehouseState where
  staging : List StageRow
  masterEmbeddings : List EmbRow
deriving DecidableEq, Repr

/-- One `client.query(...).result()` job of the asset. -/
inductive BqJob where
  | mergeJob
  | truncateJob
deriving DecidableEq, Repr

/-- A run of the asset: the jobs whose results were awaited, the final
warehouse state, and whether the asset raised. -/
structure BqRun where
  executed : List BqJob
  finalState : WarehouseState
  raised : Bool
deriving DecidableEq, Repr

/-- `master_daily_embeddings_merge`: the MERGE job runs first and its
`job.result()` is awaited with no surrounding handler, so a failed
merge propagates before `TRUNCATE TABLE staging` is ever submitted.
Each BigQuery job is atomic: a failed job leaves its table unchanged. -/
def master_daily_embeddings_merge (embedFn : StageRow → List Int)
    (mergeSucceeds truncateSucceeds : Bool) (s : WarehouseState) : BqRun :=
  if mergeSucceeds then
    let s1 : WarehouseState :=
      ⟨s.staging, mergeInto s.masterEmbeddings (generatedEmbeddings embedFn s.staging)⟩
    if truncateSucceeds then
      ⟨[BqJob.mergeJob, BqJob.truncateJob], ⟨[], s1.masterEmbeddings⟩, false⟩
    else
      ⟨[BqJob.mergeJob, BqJob.truncateJob], s1, true⟩
  else
    ⟨[BqJob.mergeJob], s, true⟩

/-! ### Extractor date fields (`scrape_norma_by_id`,
infoleg_scraper.py lines 271-313). -/

/-- The fixed-shape probe of `re.search(r"(\d{2}-[A-Z]{3}-\d{4})", _)`
at one position. -/
def matchDashAt : List Char → Option (List Char)
  | d1 :: d2 :: h1 :: a :: b :: c :: h2 :: y1 :: y2 :: y3 :: y4 :: _rest =>
      if h1 = '-' ∧ h2 = '-' ∧ isAsciiDigit d1 ∧ isAsciiDigit d2 ∧
         isAsciiUpper a ∧ isAsciiUpper b ∧ isAsciiUpper c ∧
         isAsciiDigit y1 ∧ isAsciiDigit y2 ∧ isAsciiDigit y3 ∧ isAsciiDigit y4 then
        some [d1, d2, h1, a, b, c, h2, y1, y2, y3, y4]
      else none
  | _ => none

/-- `re.search(r"(\d{2}-[A-Z]{3}-\d{4})", t)`: leftmost match. -/
def searchDashDate : List Char → Option (List Char)
  | [] => none
  | c :: rest =>
      match matchDashAt (c :: rest) with
      | some s => some s
      | none => searchDashDate rest

/-- Extraction of `fecha_sancion` (lines 271-280): the text of the
`span.vr_azul11` tag if present; the converted date when
`convert_date_format` yields a truthy string, otherwise the raw text. -/
def extract_fecha_sancion (fechaTag : Option String) : String :=
  match fechaTag with
  | none => ""
  | some fecha_text =>
      match convert_date_format fecha_text with
      | some c => if c ≠ "" then c else fecha_text
      | none => fecha_text

/-- The `fecha_converted = convert_date_format(...); if fecha_converted:`
idiom: keep the conversion when it is truthy, else the empty default. -/
def truthyConvert (t : String) : String :=
  match convert_date_format t with
  | some c => if c ≠ "" then c else ""
  | none => ""

/-- The `page_id=216` link step of the `fecha_boletin` extraction. -/
def fecha_link_step (fechaLink : Option String) : String :=
  match fechaLink with
  | some linkText => truthyConvert linkText
  | none => ""

/-- Extraction of `fecha_boletin` (lines 293-313), given the boletin
paragraph when the `h1` tag and its sibling `p` exist: the `page_id=216`
link text if that converts to a truthy string, else the first
`\d{2}-[A-Z]{3}-\d{4}` substring of the paragraph text if that
converts; otherwise the `""` default. -/
def extract_fecha_boletin (boletinP : Option (Option String × String)) : String :=
  match boletinP with
  | none => ""
  | some (fechaLink, boletinText) =>
      if fecha_link_step fechaLink ≠ "" then fecha_link_step fechaLink
      else
        match searchDashDate boletinText.data with
        | some mtext => truthyConvert (String.mk mtext)
        | none => ""

/-- Spec-side: a well-formed `YYYY-MM-DD` string. -/
def spec_wellFormedYMD (s : String) : Bool :=
  match s.data with
  | [y1, y2, y3, y4, h1, m1, m2, h2, d1, d2] =>
      h1 = '-' ∧ h2 = '-' ∧
      isAsciiDigit y1 ∧ isAsciiDigit y2 ∧ isAsciiDigit y3 ∧ isAsciiDigit y4 ∧
      isAsciiDigit m1 ∧ isAsciiDigit m2 ∧ isAsciiDigit d1 ∧ isAsciiDigit d2
  | _ => false


/-! ## Helper lemmas on characters and rendering -/

/-- Digit characters are digits. -/
theorem dChar_digit : ∀ n, n < 10 → isAsciiDigit (dChar n) = true := by decide

/-- Digit value of a digit character. -/
theorem dChar_val : ∀ n, n < 10 → digitVal (dChar n) = n := by decide

/-- Digit characters are not whitespace. -/
theorem dChar_notSpace : ∀ n, n < 10 → isPySpace (dChar n) = false := by decide

/-- ASCII letters are not whitespace. -/
theorem alpha_notSpace (c : Char) (h : isAsciiAlpha c = true) : isPySpace c = false := by
  simp only [isAsciiAlpha, decide_eq_true_eq] at h
  simp only [isPySpace, decide_eq_false_iff_not]
  omega

/-- `dropWhile` is the identity when no element satisfies the predicate. -/
theorem dropWhile_of_forall {p : Char → Bool} :
    ∀ {l : List Char}, (∀ c ∈ l, p c = false) → l.dropWhile p = l
  | [], _ => rfl
  | a :: t, h => by simp [List.dropWhile, h a (by simp)]

/-- `pyStrip` is the identity on whitespace-free strings. -/
theorem pyStrip_of_forall {l : List Char} (h : ∀ c ∈ l, isPySpace c = false) :
    pyStrip l = l := by
  unfold pyStrip
  rw [dropWhile_of_forall h, dropWhile_of_forall (by simpa using h), List.reverse_reverse]

/-- A two-digit field parses to its value. -/
theorem parse2or1_two (bound : Nat) (c1 c2 : Char) (rest : List Char)
    (h1 : isAsciiDigit c1 = true) (h2 : isAsciiDigit c2 = true)
    (hv : 1 ≤ 10 * digitVal c1 + digitVal c2) (hb : 10 * digitVal c1 + digitVal c2 ≤ bound) :
    parse2or1 bound (c1 :: c2 :: rest) = some (10 * digitVal c1 + digitVal c2, rest) := by
  simp only [parse2or1]
  rw [if_pos ⟨h1, h2, hv, hb⟩]

/-- A zero-padded two-digit rendering parses back to its value. -/
theorem parse2or1_pad (bound n : Nat) (rest : List Char) (h1 : 1 ≤ n) (hb : n ≤ bound)
    (h9 : n ≤ 99) : parse2or1 bound (pad2 n ++ rest) = some (n, rest) := by
  have hd : n / 10 < 10 := by omega
  have hm : n % 10 < 10 := by omega
  have := parse2or1_two bound (dChar (n / 10)) (dChar (n % 10)) rest
    (dChar_digit _ hd) (dChar_digit _ hm)
  rw [dChar_val _ hd, dChar_val _ hm] at this
  have e : 10 * (n / 10) + n % 10 = n := by omega
  rw [e] at this
  simpa [pad2] using this h1 hb

/-- A zero-padded four-digit rendering parses back to its value. -/
theorem parse_Y_pad (y : Nat) (rest : List Char) (hy : y ≤ 9999) :
    parse_Y (pad4 y ++ rest) = some (y, rest) := by
  have h1 : y / 1000 < 10 := by omega
  have h2 : y / 100 % 10 < 10 := by omega
  have h3 : y / 10 % 10 < 10 := by omega
  have h4 : y % 10 < 10 := by omega
  simp only [pad4, List.cons_append, List.nil_append, parse_Y,
    dChar_digit _ h1, dChar_digit _ h2, dChar_digit _ h3, dChar_digit _ h4,
    dChar_val _ h1, dChar_val _ h2, dChar_val _ h3, dChar_val _ h4]
  rw [if_pos ⟨trivial, trivial, trivial, trivial⟩]
  have e : 1000 * (y / 1000) + 100 * (y / 100 % 10) + 10 * (y / 10 % 10) + y % 10 = y := by
    omega
  rw [e]

/-- Rendering a single digit needs no fuel. -/
theorem natCharsAux_small (fuel n : Nat) (h : n < 10) : natCharsAux fuel n = [dChar n] := by
  cases fuel with
  | zero => rfl
  | succ f => simp [natCharsAux, h]

/-- Rendering a two-digit number. -/
theorem natCharsAux_two (fuel n : Nat) (h1 : 10 ≤ n) (h2 : n ≤ 99) (hf : 1 ≤ fuel) :
    natCharsAux fuel n = [dChar (n / 10), dChar (n % 10)] := by
  obtain ⟨f, rfl⟩ : ∃ f, fuel = f + 1 := ⟨fuel - 1, by omega⟩
  rw [natCharsAux, if_neg (by omega), natCharsAux_small f (n / 10) (by omega)]
  rfl

/-- Rendering a three-digit number. -/
theorem natCharsAux_three (fuel n : Nat) (h1 : 100 ≤ n) (h2 : n ≤ 999) (hf : 2 ≤ fuel) :
    natCharsAux fuel n = [dChar (n / 100), dChar (n / 10 % 10), dChar (n % 10)] := by
  obtain ⟨f, rfl⟩ : ∃ f, fuel = f + 1 := ⟨fuel - 1, by omega⟩
  rw [natCharsAux, if_neg (by omega),
    natCharsAux_two f (n / 10) (by omega) (by omega) (by omega)]
  have e : n / 10 / 10 = n / 100 := by omega
  rw [e]
  rfl

/-- For a four-digit year the platform rendering coincides with the
zero-padded one. -/
theorem natChars_pad4 (y : Nat) (h1 : 1000 ≤ y) (h2 : y ≤ 9999) : natChars y = pad4 y := by
  unfold natChars
  have hstep : natCharsAux y y = natCharsAux ((y - 1) + 1) y := by
    congr 1
    omega
  rw [hstep, natCharsAux, if_neg (by omega),
    natCharsAux_three (y - 1) (y / 10) (by omega) (by omega) (by omega)]
  have e1 : y / 10 / 100 = y / 1000 := by omega
  have e2 : y / 10 / 10 % 10 = y / 100 % 10 := by omega
  rw [e1, e2]
  rfl


/-- The strptime regex phase inverts the padded rendering. -/
theorem strptime_dmY_pad (d m y : Nat) (hd1 : 1 ≤ d) (hd2 : d ≤ 31)
    (hm1 : 1 ≤ m) (hm2 : m ≤ 12) (hy : y ≤ 9999) :
    strptime_dmY (pad2 d ++ '/' :: (pad2 m ++ '/' :: pad4 y)) = some (d, m, y) := by
  have h1 : parse_d (pad2 d ++ '/' :: (pad2 m ++ '/' :: pad4 y)) =
      some (d, '/' :: (pad2 m ++ '/' :: pad4 y)) :=
    parse2or1_pad 31 d _ hd1 hd2 (by omega)
  have h2 : parse_m (pad2 m ++ '/' :: pad4 y) = some (m, '/' :: pad4 y) :=
    parse2or1_pad 12 m _ hm1 hm2 (by omega)
  have h3 : parse_Y (pad4 y) = some (y, []) := by
    have := parse_Y_pad y [] hy
    simpa using this
  simp only [strptime_dmY, h1, h2, h3, if_true]

/-- Months have at most 31 days. -/
theorem daysInMonth_le (y m : Nat) : daysInMonth y m ≤ 31 := by
  unfold daysInMonth
  split
  · split <;> omega
  · split <;> omega

/-- No character of the rendered slash date is whitespace. -/
theorem slash_noSpace (d m y : Nat) (hd : d ≤ 99) (hm : m ≤ 99) (hy : y ≤ 9999) :
    ∀ c ∈ pad2 d ++ '/' :: (pad2 m ++ '/' :: pad4 y), isPySpace c = false := by
  intro c hc
  simp only [pad2, pad4, List.mem_append, List.mem_cons, List.not_mem_nil, or_false] at hc
  rcases hc with (h | h) | h | (h | h) | h | h | h | h | h <;> subst h
  · exact dChar_notSpace _ (by omega)
  · exact dChar_notSpace _ (by omega)
  · decide
  · exact dChar_notSpace _ (by omega)
  · exact dChar_notSpace _ (by omega)
  · decide
  · exact dChar_notSpace _ (by omega)
  · exact dChar_notSpace _ (by omega)
  · exact dChar_notSpace _ (by omega)
  · exact dChar_notSpace _ (by omega)


/-- The validated slash parse inverts the padded rendering of a valid date. -/
theorem slashDate_pad (d m y : Nat) (hd1 : 1 ≤ d) (hd2 : d ≤ daysInMonth y m)
    (hm1 : 1 ≤ m) (hm2 : m ≤ 12) (hy1 : 1 ≤ y) (hy : y ≤ 9999) :
    slashDate (pad2 d ++ '/' :: (pad2 m ++ '/' :: pad4 y)) = some (d, m, y) := by
  have hd31 : d ≤ 31 := le_trans hd2 (daysInMonth_le y m)
  simp only [slashDate, strptime_dmY_pad d m y hd1 hd31 hm1 hm2 hy]
  rw [if_pos ⟨hy1, hd2⟩]

/-- No character of the rendered dash date is whitespace. -/
theorem dash_noSpace (d y : Nat) (a b c : Char) (hd : d ≤ 99) (hy : y ≤ 9999)
    (ha : isAsciiAlpha a = true) (hb : isAsciiAlpha b = true) (hc : isAsciiAlpha c = true) :
    ∀ ch ∈ pad2 d ++ '-' :: a :: b :: c :: '-' :: pad4 y, isPySpace ch = false := by
  intro ch hch
  simp only [pad2, pad4, List.mem_append, List.mem_cons, List.not_mem_nil, or_false] at hch
  rcases hch with (h | h) | h | h | h | h | h | h | h | h | h <;> subst h
  · exact dChar_notSpace _ (by omega)
  · exact dChar_notSpace _ (by omega)
  · decide
  · exact alpha_notSpace _ ha
  · exact alpha_notSpace _ hb
  · exact alpha_notSpace _ hc
  · decide
  · exact dChar_notSpace _ (by omega)
  · exact dChar_notSpace _ (by omega)
  · exact dChar_notSpace _ (by omega)
  · exact dChar_notSpace _ (by omega)

/-- On a dash-shaped input the slash parse fails at the first separator. -/
theorem slashDate_dashInput (d y : Nat) (a b c : Char) (hd1 : 1 ≤ d) (hd31 : d ≤ 31) :
    slashDate (pad2 d ++ '-' :: a :: b :: c :: '-' :: pad4 y) = none := by
  have h1 : parse_d (pad2 d ++ '-' :: a :: b :: c :: '-' :: pad4 y) =
      some (d, '-' :: a :: b :: c :: '-' :: pad4 y) :=
    parse2or1_pad 31 d _ hd1 hd31 (by omega)
  simp only [slashDate, strptime_dmY, h1]
  rw [if_neg (by decide)]

/-- The dash branch succeeds on a rendered dash date with a known month. -/
theorem dashBranch_pad (d y : Nat) (a b c : Char) (mon : List Char)
    (hd : d ≤ 99) (hy : y ≤ 9999)
    (ha : isAsciiAlpha a = true) (hb : isAsciiAlpha b = true) (hc : isAsciiAlpha c = true)
    (hmon : month_map [upperC a, upperC b, upperC c] = some mon) :
    dashBranch (pad2 d ++ '-' :: a :: b :: c :: '-' :: pad4 y) =
      some (String.mk (pad4 y ++ '-' :: mon ++ '-' :: pad2 d)) := by
  simp only [pad2, pad4, List.cons_append, List.nil_append, dashBranch]
  rw [if_pos (by
    refine ⟨?_, ?_, ?_, ?_, ha, hb, hc, ?_, ?_, ?_, ?_⟩ <;>
      first
      | trivial
      | exact dChar_digit _ (by omega))]
  rw [hmon]


/-- Claim C2 (counterexample): `"99-ENE-2024"` is not a valid date in
either accepted format, yet `convert_date_format` returns
`"2024-01-99"` rather than `None` — the dash regex neither validates
the day nor anchors at the end of the string. -/
theorem C2_counterexample :
    convert_date_format "99-ENE-2024" = some "2024-01-99" ∧
    spec_isValidDateInput "99-ENE-2024" = false := by
  exact ⟨by decide, by decide⟩

/-- Claim C2 (amended): every valid date rendered as zero-padded
`DD/MM/YYYY` with a four-digit year ≥ 1000 normalizes to its
`YYYY-MM-DD` form; every `DD-MMM-YYYY` rendering with a two-digit day
and a Spanish month abbreviation in any letter case yields
`YYYY-MM-<DD>` with the day passed through; and `None` is returned
exactly when the stripped input neither passes the (permissive,
unpadded-accepting) strptime slash parse nor starts with a
dash-date-shaped prefix having a known month abbreviation. -/
theorem C2_date_normalizer_amended :
    (∀ d m y : Nat, 1 ≤ d → d ≤ daysInMonth y m → 1 ≤ m → m ≤ 12 →
      1000 ≤ y → y ≤ 9999 →
      convert_date_format (String.mk (pad2 d ++ '/' :: (pad2 m ++ '/' :: pad4 y))) =
        some (String.mk (pad4 y ++ '-' :: (pad2 m ++ '-' :: pad2 d)))) ∧
    (∀ d y : Nat, ∀ a b c : Char, ∀ mon : List Char,
      1 ≤ d → d ≤ 31 → y ≤ 9999 →
      isAsciiAlpha a = true → isAsciiAlpha b = true → isAsciiAlpha c = true →
      month_map [upperC a, upperC b, upperC c] = some mon →
      convert_date_format (String.mk (pad2 d ++ '-' :: a :: b :: c :: '-' :: pad4 y)) =
        some (String.mk (pad4 y ++ '-' :: (mon ++ '-' :: pad2 d)))) ∧
    (∀ s : String, convert_date_format s = none ↔
      (slashDate (pyStrip s.data) = none ∧ dashBranch (pyStrip s.data) = none)) := by
  refine ⟨?_, ?_, ?_⟩
  · intro d m y hd1 hd2 hm1 hm2 hy1 hy2
    have hd31 : d ≤ 31 := le_trans hd2 (daysInMonth_le y m)
    show convertCore (pad2 d ++ '/' :: (pad2 m ++ '/' :: pad4 y)) = _
    unfold convertCore
    rw [if_neg (by simp [pad2])]
    rw [pyStrip_of_forall (slash_noSpace d m y (by omega) (by omega) (by omega))]
    rw [slashDate_pad d m y hd1 hd2 hm1 hm2 (by omega) (by omega)]
    show some (strftime_Ymd y m d) = _
    unfold strftime_Ymd
    rw [natChars_pad4 y hy1 hy2]
    simp
  · intro d y a b c mon hd1 hd31 hy ha hb hc hmon
    show convertCore (pad2 d ++ '-' :: a :: b :: c :: '-' :: pad4 y) = _
    unfold convertCore
    rw [if_neg (by simp [pad2])]
    rw [pyStrip_of_forall (dash_noSpace d y a b c (by omega) hy ha hb hc)]
    rw [slashDate_dashInput d y a b c hd1 hd31]
    rw [dashBranch_pad d y a b c mon (by omega) hy ha hb hc hmon]
    rfl
  · intro s
    show convertCore s.data = none ↔ _
    unfold convertCore
    cases hl : s.data.isEmpty
    · rw [if_neg (by simp [hl])]
      cases hsd : slashDate (pyStrip s.data) with
      | some v => obtain ⟨d, m, y⟩ := v; simp
      | none => simp
    · have hd : s.data = [] := by simpa using hl
      rw [hd]
      constructor
      · intro _
        exact ⟨rfl, rfl⟩
      · intro _
        rfl

/-- Witness for `C2_date_normalizer_amended` at concrete inputs. -/
theorem C2_date_normalizer_amended_witness :
    convert_date_format (String.mk (pad2 5 ++ '/' :: (pad2 2 ++ '/' :: pad4 2021))) =
      some (String.mk (pad4 2021 ++ '-' :: (pad2 2 ++ '-' :: pad2 5))) ∧
    convert_date_format (String.mk (pad2 1 ++ '-' :: 'e' :: 'N' :: 'e' :: '-' :: pad4 2024)) =
      some (String.mk (pad4 2024 ++ '-' :: (['0', '1'] ++ '-' :: pad2 1))) ∧
    (convert_date_format "garbage" = none ↔
      (slashDate (pyStrip "garbage".data) = none ∧ dashBranch (pyStrip "garbage".data) = none)) :=
  ⟨C2_date_normalizer_amended.1 5 2 2021 (by decide) (by decide) (by decide) (by decide)
      (by decide) (by decide),
   C2_date_normalizer_amended.2.1 1 2024 'e' 'N' 'e' ['0', '1'] (by decide) (by decide)
      (by decide) (by decide) (by decide) (by decide) (by decide),
   C2_date_normalizer_amended.2.2 "garbage"⟩


/-! ## Dedupe lemmas (claims C3 and C4) -/

/-- Every survivor of the dedupe is a row of the input. -/
theorem unique_keep_last_subset :
    ∀ {l : List MasterRow} {x : MasterRow}, x ∈ unique_keep_last l → x ∈ l
  | [], x, h => absurd h (List.not_mem_nil x)
  | r :: rest, x, h => by
    unfold unique_keep_last at h
    split at h
    · exact List.mem_cons_of_mem _ (unique_keep_last_subset h)
    · rcases List.mem_cons.mp h with h | h
      · exact h ▸ List.mem_cons_self _ _
      · exact List.mem_cons_of_mem _ (unique_keep_last_subset h)

/-- The survivors with a given `id_norma` are exactly the last input
occurrence of that `id_norma`. -/
theorem unique_keep_last_filter (id : Int) :
    ∀ l : List MasterRow,
      (unique_keep_last l).filter (fun r => r.id_norma == id) =
        ((l.filter (fun r => r.id_norma == id)).getLast?).toList
  | [] => rfl
  | r :: rest => by
    have ih := unique_keep_last_filter id rest
    unfold unique_keep_last
    by_cases hany : rest.any (fun x => x.id_norma == r.id_norma) = true
    · rw [if_pos hany]
      by_cases hp : r.id_norma = id
      · have hne : rest.filter (fun x => x.id_norma == id) ≠ [] := by
          rcases List.any_eq_true.mp hany with ⟨x, hx, hbeq⟩
          have hxid : x.id_norma = id := by rw [beq_iff_eq.mp hbeq, hp]
          exact List.ne_nil_of_mem
            (List.mem_filter.mpr ⟨hx, beq_iff_eq.mpr hxid⟩)
        rw [List.filter_cons, if_pos (beq_iff_eq.mpr hp)]
        cases hf : rest.filter (fun x => x.id_norma == id) with
        | nil => exact absurd hf hne
        | cons y ys => rw [List.getLast?_cons_cons, ← hf, ih]
      · rw [List.filter_cons, if_neg (by simp [beq_eq_false_iff_ne.mpr hp]), ih]
    · have hnone := List.any_eq_false.mp (eq_false_of_ne_true hany)
      rw [if_neg hany]
      by_cases hp : r.id_norma = id
      · have hfe : rest.filter (fun x => x.id_norma == id) = [] := by
          rw [List.filter_eq_nil_iff]
          intro x hx hbeq
          exact hnone x hx (by simp [beq_iff_eq.mp hbeq, hp])
        rw [List.filter_cons, if_pos (beq_iff_eq.mpr hp),
          List.filter_cons, if_pos (beq_iff_eq.mpr hp), hfe, ih, hfe]
        rfl
      · rw [List.filter_cons, if_neg (by simp [beq_eq_false_iff_ne.mpr hp]),
          List.filter_cons, if_neg (by simp [beq_eq_false_iff_ne.mpr hp]), ih]

/-- After the dedupe no `id_norma` appears twice. -/
theorem unique_keep_last_nodup :
    ∀ l : List MasterRow, ((unique_keep_last l).map MasterRow.id_norma).Nodup
  | [] => List.nodup_nil
  | r :: rest => by
    have ih := unique_keep_last_nodup rest
    unfold unique_keep_last
    by_cases hany : rest.any (fun x => x.id_norma == r.id_norma) = true
    · rw [if_pos hany]; exact ih
    · rw [if_neg hany]
      have hnone := List.any_eq_false.mp (eq_false_of_ne_true hany)
      rw [List.map_cons, List.nodup_cons]
      refine ⟨?_, ih⟩
      intro hmem
      rcases List.mem_map.mp hmem with ⟨x, hx, hxe⟩
      exact hnone x (unique_keep_last_subset hx) (beq_iff_eq.mpr hxe)

/-- The dedupe preserves the set of `id_norma` values. -/
theorem unique_keep_last_mem_ids (l : List MasterRow) (id : Int) :
    id ∈ (unique_keep_last l).map MasterRow.id_norma ↔ id ∈ l.map MasterRow.id_norma := by
  have key : ∀ m : List MasterRow,
      id ∈ m.map MasterRow.id_norma ↔ m.filter (fun r => r.id_norma == id) ≠ [] := by
    intro m
    constructor
    · intro h
      rcases List.mem_map.mp h with ⟨x, hx, hxe⟩
      exact List.ne_nil_of_mem (List.mem_filter.mpr ⟨hx, beq_iff_eq.mpr hxe⟩)
    · intro h
      cases hf : m.filter (fun r => r.id_norma == id) with
      | nil => exact absurd hf h
      | cons y ys =>
        have hy := List.mem_filter.mp (hf ▸ List.mem_cons_self y ys)
        exact List.mem_map.mpr ⟨y, hy.1, beq_iff_eq.mp hy.2⟩
  rw [key, key, unique_keep_last_filter id l]
  cases hf : l.filter (fun r => r.id_norma == id) with
  | nil => simp
  | cons y ys =>
    have : (y :: ys).getLast? ≠ none := by
      cases hg : (y :: ys).getLast? with
      | none => exact absurd hg (by simp [List.getLast?_eq_getLast])
      | some z => simp
    constructor
    · intro _; simp
    · intro _
      cases hg : (y :: ys).getLast? with
      | none => exact absurd hg this
      | some z => simp [hg]

/-- The dedupe keeps one row per distinct `id_norma`. -/
theorem unique_keep_last_length (l : List MasterRow) :
    (unique_keep_last l).length = (l.map MasterRow.id_norma).toFinset.card := by
  have h1 : (unique_keep_last l).length =
      ((unique_keep_last l).map MasterRow.id_norma).length :=
    (List.length_map _ _).symm
  rw [h1, ← List.toFinset_card_of_nodup (unique_keep_last_nodup l)]
  congr 1
  apply Finset.ext
  intro a
  rw [List.mem_toFinset, List.mem_toFinset, unique_keep_last_mem_ids]

/-- Claim C3: the dedupe-and-load step keeps exactly one row per
`id_norma` (the ids of the surviving rows are pairwise distinct), and
for every `id_norma` the surviving row is precisely the last occurrence
in file order. -/
theorem C3_dedupe_keeps_last_occurrence (rows : List MasterRow) :
    ((unique_keep_last rows).map MasterRow.id_norma).Nodup ∧
    ∀ id : Int,
      (unique_keep_last rows).filter (fun r => r.id_norma == id) =
        ((rows.filter (fun r => r.id_norma == id)).getLast?).toList :=
  ⟨unique_keep_last_nodup rows, fun id => unique_keep_last_filter id rows⟩

/-- Claim C4: appending the same daily batch twice and deduplicating
yields the same deduplicated row count as appending it once. -/
theorem C4_repeated_append_idempotent (master batch : List MasterRow) :
    (unique_keep_last (master_daily_merge (master_daily_merge master batch) batch)).length =
      (unique_keep_last (master_daily_merge master batch)).length := by
  unfold master_daily_merge
  rw [unique_keep_last_length, unique_keep_last_length]
  congr 1
  simp [List.map_append, List.toFinset_append, Finset.union_assoc, Finset.union_self]


theorem scrapeLoop_eq_IF (W : Nat) (D : ℚ) (f : Nat → Option MasterRow) :
    ∀ (l : List Nat) (i N : Nat) (tasks : List Nat), N = i + l.length →
      scrapeLoop W D f l i N tasks = scrapeLoopIF W D f l tasks
  | [], _i, _N, _tasks, _h => rfl
  | id :: rest, i, N, tasks, hN => by
    unfold scrapeLoop scrapeLoopIF
    by_cases hW : W ≤ (tasks ++ [id]).length
    · rw [if_pos hW, if_pos hW]
      cases rest with
      | nil =>
        have hni : ¬ i < N - 1 := by
          simp only [List.length_cons, List.length_nil] at hN
          omega
        rw [if_neg hni]
        simp [scrapeLoop, scrapeLoopIF]
      | cons r2 rs =>
        have hi : i < N - 1 := by
          simp only [List.length_cons] at hN
          omega
        rw [if_pos hi, if_neg (by simp)]
        exact congrArg _ (congrArg _
          (scrapeLoop_eq_IF W D f (r2 :: rs) (i + 1) N [] (by simp at hN ⊢; omega)))
    · rw [if_neg hW, if_neg hW]
      exact scrapeLoop_eq_IF W D f rest (i + 1) N (tasks ++ [id]) (by simp at hN ⊢; omega)


theorem IF_eq_ifSpec (W : Nat) (D : ℚ) (f : Nat → Option MasterRow) :
    ∀ (l tasks : List Nat), tasks.length < W →
      scrapeLoopIF W D f l tasks = ifSpec W D f tasks l
  | [], tasks, h => by
    unfold scrapeLoopIF ifSpec
    have hc : tasks.length + ([] : List Nat).length ≤ W := by simpa using le_of_lt h
    rw [if_pos hc]
    simp
  | id :: rest, tasks, h => by
    unfold scrapeLoopIF
    by_cases hW : W ≤ (tasks ++ [id]).length
    · rw [if_pos hW]
      have hlen : tasks.length + 1 = W := by
        simp only [List.length_append, List.length_cons, List.length_nil] at hW
        omega
      cases rest with
      | nil =>
        unfold ifSpec
        have hc1 : tasks.length + ([id] : List Nat).length ≤ W := by simp; omega
        rw [if_pos hc1]
        have hc2 : ¬ ((tasks ++ [id]).isEmpty = true) := by simp
        rw [if_neg hc2]
        simp [scrapeLoopIF]
      | cons r2 rs =>
        unfold ifSpec
        have hc : ¬ (tasks.length + (id :: r2 :: rs).length ≤ W) := by simp; omega
        rw [if_neg hc]
        have hk : W - tasks.length = 1 := by omega
        rw [hk]
        have ht1 : (id :: r2 :: rs).take 1 = [id] := rfl
        have hd1 : (id :: r2 :: rs).drop 1 = r2 :: rs := rfl
        rw [ht1, hd1]
        have hc3 : ¬ ((r2 :: rs).isEmpty = true) := by simp
        rw [if_neg hc3]
    · rw [if_neg hW]
      have h2 : (tasks ++ [id]).length < W := by
        simp only [List.length_append, List.length_cons, List.length_nil] at hW ⊢
        omega
      rw [IF_eq_ifSpec W D f rest (tasks ++ [id]) h2]
      unfold ifSpec
      by_cases ht : tasks.length + (id :: rest).length ≤ W
      · have hcR : (tasks ++ [id]).length + rest.length ≤ W := by
          simp only [List.length_cons] at ht
          simp only [List.length_append, List.length_cons, List.length_nil]
          omega
        rw [if_pos hcR, if_pos ht]
        simp
      · have hcR : ¬ ((tasks ++ [id]).length + rest.length ≤ W) := by
          simp only [List.length_cons] at ht
          simp only [List.length_append, List.length_cons, List.length_nil]
          omega
        rw [if_neg hcR, if_neg ht]
        have hk : W - tasks.length = (W - (tasks ++ [id]).length) + 1 := by
          simp only [List.length_append, List.length_cons, List.length_nil] at h2 ⊢
          omega
        rw [hk, List.take_succ_cons, List.drop_succ_cons]
        simp [List.append_assoc]


theorem chunksW_nil (W : Nat) : chunksW W [] = [] := by
  rw [chunksW]

theorem chunksW_step (W : Nat) (hW : 0 < W) (x : Nat) (xs : List Nat) :
    chunksW W (x :: xs) = (x :: xs).take W :: chunksW W ((x :: xs).drop W) := by
  obtain ⟨W2, rfl⟩ : ∃ W2, W = W2 + 1 := ⟨W - 1, by omega⟩
  rw [chunksW]
  simp [List.take_succ_cons, List.drop_succ_cons]

theorem chunksW_ne_nil (W : Nat) (x : Nat) (xs : List Nat) :
    chunksW W (x :: xs) ≠ [] := by
  rw [chunksW]
  exact List.cons_ne_nil _ _

theorem chunksW_small (W : Nat) (x : Nat) (xs : List Nat)
    (h : (x :: xs).length ≤ W) : chunksW W (x :: xs) = [x :: xs] := by
  rw [chunksW]
  have h1 : xs.length ≤ W - 1 := by simp at h; omega
  rw [List.take_of_length_le h1, List.drop_eq_nil_of_le h1, chunksW_nil]

theorem chunksW_flatten (W : Nat) :
    ∀ (n : Nat) (l : List Nat), l.length ≤ n → (chunksW W l).flatten = l
  | _n, [], _h => by rw [chunksW_nil]; rfl
  | 0, _x :: _xs, h => absurd h (by simp)
  | n + 1, x :: xs, h => by
    rw [chunksW]
    have hlen : (xs.drop (W - 1)).length ≤ n := by
      simp only [List.length_drop]
      simp only [List.length_cons] at h
      omega
    rw [List.flatten_cons, chunksW_flatten W n (xs.drop (W - 1)) hlen]
    simp [List.take_append_drop]

theorem chunksW_sizes (W : Nat) (hW : 0 < W) :
    ∀ (n : Nat) (l : List Nat), l.length ≤ n →
      (chunksW W l).map List.length =
        List.replicate (l.length / W) W ++
          (if l.length % W = 0 then [] else [l.length % W])
  | _n, [], _h => by rw [chunksW_nil]; simp
  | 0, _x :: _xs, h => absurd h (by simp)
  | n + 1, x :: xs, h => by
    by_cases hle : (x :: xs).length ≤ W
    · rw [chunksW_small W x xs hle]
      by_cases heq : (x :: xs).length = W
      · rw [List.map_cons, List.map_nil, heq, Nat.div_self hW, Nat.mod_self]
        simp
      · have hlt : (x :: xs).length < W := by omega
        rw [List.map_cons, List.map_nil, Nat.div_eq_of_lt hlt, Nat.mod_eq_of_lt hlt]
        rw [if_neg (by simp)]
        simp
    · rw [chunksW_step W hW x xs]
      have hlt : W < (x :: xs).length := by omega
      have hlen : ((x :: xs).drop W).length ≤ n := by
        simp only [List.length_drop]
        simp only [List.length_cons] at h ⊢
        omega
      rw [List.map_cons, chunksW_sizes W hW n ((x :: xs).drop W) hlen]
      rw [List.length_take, min_eq_left (le_of_lt hlt), List.length_drop]
      rw [Nat.div_eq_sub_div hW (le_of_lt hlt), Nat.mod_eq_sub_mod (le_of_lt hlt)]
      rw [List.replicate_succ]
      rfl

theorem IF_canon (W : Nat) (D : ℚ) (f : Nat → Option MasterRow) (hW : 0 < W) :
    ∀ (n : Nat) (l : List Nat), l.length ≤ n →
      scrapeLoopIF W D f l [] = canonicalTrace D f (chunksW W l)
  | _n, [], _h => by rw [chunksW_nil]; rfl
  | 0, _x :: _xs, h => absurd h (by simp)
  | n + 1, x :: xs, h => by
    rw [IF_eq_ifSpec W D f (x :: xs) [] (by simpa using hW)]
    unfold ifSpec
    by_cases hle : ([] : List Nat).length + (x :: xs).length ≤ W
    · rw [if_pos hle]
      have hc2 : ¬ ((([] : List Nat) ++ x :: xs).isEmpty = true) := by simp
      rw [if_neg hc2]
      rw [chunksW_small W x xs (by simpa using hle)]
      simp [canonicalTrace]
    · rw [if_neg hle]
      simp only [List.nil_append, List.length_nil, Nat.sub_zero]
      have hlen : ((x :: xs).drop W).length ≤ n := by
        simp only [List.length_drop]
        simp only [List.length_cons] at h ⊢
        omega
      rw [IF_canon W D f hW n ((x :: xs).drop W) hlen]
      rw [chunksW_step W hW x xs]
      have hdlen : 0 < ((x :: xs).drop W).length := by
        rw [List.length_drop]
        simp only [List.length_cons]
        simp only [List.length_nil, List.length_cons] at hle
        omega
      have hdz : (x :: xs).drop W ≠ [] := List.length_pos.mp hdlen
      cases hd : (x :: xs).drop W with
      | nil => exact absurd hd hdz
      | cons y ys =>
        cases hgs : chunksW W (y :: ys) with
        | nil => exact absurd hgs (chunksW_ne_nil W y ys)
        | cons g2 gs2 =>
          rw [canonicalTrace]


theorem scrapeLoop_batch_inv (W : Nat) (D : ℚ) (f : Nat → Option MasterRow) :
    ∀ (l : List Nat) (i N : Nat) (tasks g : List Nat) (fl : List MasterRow),
      FetchEv.batch g fl ∈ scrapeLoop W D f l i N tasks → fl = g.filterMap f
  | [], _i, _N, tasks, g, fl, h => by
    unfold scrapeLoop at h
    split at h
    · exact absurd h (List.not_mem_nil _)
    · have h2 := List.mem_singleton.mp h
      injection h2 with h3 h4
      rw [h4, h3]
  | id :: rest, i, N, tasks, g, fl, h => by
    unfold scrapeLoop at h
    split at h
    · rcases List.mem_cons.mp h with h2 | h2
      · injection h2 with h3 h4
        rw [h4, h3]
      · split at h2
        · rcases List.mem_cons.mp h2 with h5 | h5
          · exact absurd h5 (by intro hx; cases hx)
          · exact scrapeLoop_batch_inv W D f rest (i + 1) N [] g fl h5
        · exact scrapeLoop_batch_inv W D f rest (i + 1) N [] g fl h2
    · exact scrapeLoop_batch_inv W D f rest (i + 1) N (tasks ++ [id]) g fl h

theorem scrapeLoop_flushed (W : Nat) (D : ℚ) (f : Nat → Option MasterRow) :
    ∀ (l : List Nat) (i N : Nat) (tasks : List Nat),
      ((scrapeLoop W D f l i N tasks).map evFlushed).flatten = (tasks ++ l).filterMap f
  | [], _i, _N, tasks => by
    unfold scrapeLoop
    split
    · rename_i hts
      rw [List.isEmpty_iff.mp hts]
      rfl
    · simp [evFlushed]
  | id :: rest, i, N, tasks => by
    unfold scrapeLoop
    have ih0 := scrapeLoop_flushed W D f rest (i + 1) N []
    have ih2 := scrapeLoop_flushed W D f rest (i + 1) N (tasks ++ [id])
    split
    · split
      · simp only [List.map_cons, List.flatten_cons, evFlushed, ih0]
        cases hf : f id <;> simp [List.filterMap_append, List.filterMap_cons, hf]
      · simp only [List.map_cons, List.flatten_cons, evFlushed, ih0]
        cases hf : f id <;> simp [List.filterMap_append, List.filterMap_cons, hf]
    · rw [ih2]
      cases hf : f id <;> simp [List.filterMap_append, List.filterMap_cons, hf]

/-- Claim C5: for a positive width `W` the fetcher's trace is exactly
one gather-and-flush per consecutive group with a sleep between
consecutive groups and none after the last; the groups concatenate to
the id list and their sizes are `⌊N/W⌋` copies of `W` followed by
`N mod W` when nonzero (so 25 ids at width 10 give 10, 10, 5). -/
theorem C5_batching (W : Nat) (D : ℚ) (f : Nat → Option MasterRow) (ids : List Nat)
    (hW : 0 < W) :
    (scrape_by_date W D f ids).1 = canonicalTrace D f (chunksW W ids) ∧
    (chunksW W ids).flatten = ids ∧
    (chunksW W ids).map List.length =
      List.replicate (ids.length / W) W ++
        (if ids.length % W = 0 then [] else [ids.length % W]) := by
  refine ⟨?_, chunksW_flatten W ids.length ids le_rfl,
    chunksW_sizes W hW ids.length ids le_rfl⟩
  show scrapeLoop W D f ids 0 ids.length [] = _
  rw [scrapeLoop_eq_IF W D f ids 0 ids.length [] (by simp)]
  exact IF_canon W D f hW ids.length ids le_rfl

/-- Witness for `C5_batching`: 25 identifiers at width 10 and delay 2. -/
theorem C5_batching_witness :
    (scrape_by_date 10 2 (fun n => some (MasterRow.mk (Int.ofNat n) "t" []))
        (List.range 25)).1 =
      canonicalTrace 2 (fun n => some (MasterRow.mk (Int.ofNat n) "t" []))
        (chunksW 10 (List.range 25)) ∧
    (chunksW 10 (List.range 25)).flatten = List.range 25 ∧
    (chunksW 10 (List.range 25)).map List.length =
      List.replicate ((List.range 25).length / 10) 10 ++
        (if (List.range 25).length % 10 = 0 then []
         else [(List.range 25).length % 10]) :=
  C5_batching 10 2 (fun n => some (MasterRow.mk (Int.ofNat n) "t" []))
    (List.range 25) (by decide)

/-- Claim C6: a batch event's flushed records are exactly the
successful fetches of its group — each failed fetch contributes
nothing, and every sibling success is flushed. -/
theorem C6_failure_isolation (W : Nat) (D : ℚ) (f : Nat → Option MasterRow)
    (ids g : List Nat) (fl : List MasterRow)
    (h : FetchEv.batch g fl ∈ (scrape_by_date W D f ids).1) :
    fl = g.filterMap f ∧ ∀ id r, id ∈ g → f id = some r → r ∈ fl := by
  have h1 : fl = g.filterMap f :=
    scrapeLoop_batch_inv W D f ids 0 ids.length [] g fl h
  exact ⟨h1, fun id r hid hr => h1 ▸ List.mem_filterMap.mpr ⟨id, hid, hr⟩⟩

/-- Witness for `C6_failure_isolation`: one failing fetch among ten. -/
theorem C6_failure_isolation_witness :
    ((fun n => if n = 3 then none
               else some (MasterRow.mk (Int.ofNat n) "t" [])) 3 = none) ∧
    ((List.range 10).filterMap
        (fun n => if n = 3 then none
                  else some (MasterRow.mk (Int.ofNat n) "t" []))).length = 9 ∧
    (((List.range 10).filterMap
        (fun n => if n = 3 then none
                  else some (MasterRow.mk (Int.ofNat n) "t" []))) =
      (List.range 10).filterMap
        (fun n => if n = 3 then none
                  else some (MasterRow.mk (Int.ofNat n) "t" [])) ∧
     ∀ id r, id ∈ List.range 10 →
       (fun n => if n = 3 then none
                 else some (MasterRow.mk (Int.ofNat n) "t" [])) id = some r →
       r ∈ (List.range 10).filterMap
        (fun n => if n = 3 then none
                  else some (MasterRow.mk (Int.ofNat n) "t" []))) :=
  ⟨by decide, by decide,
   C6_failure_isolation 10 2
     (fun n => if n = 3 then none else some (MasterRow.mk (Int.ofNat n) "t" []))
     (List.range 10) (List.range 10)
     ((List.range 10).filterMap
        (fun n => if n = 3 then none else some (MasterRow.mk (Int.ofNat n) "t" [])))
     (by decide)⟩

/-- Claim C7: `scrape_by_date` returns the number of records written,
and its caller raises `LookupError` on a zero count before any GCS
archiving, while any positive count proceeds to the archive step. -/
theorem C7_zero_scraped_hard_failure (W : Nat) (D : ℚ) (f : Nat → Option MasterRow)
    (ids : List Nat) (date : String) :
    (scrape_by_date W D f ids).2 = (ids.filterMap f).length ∧
    ((scrape_by_date W D f ids).2 = 0 →
      scrape_boletin_and_archive date (scrape_by_date W D f ids).2 =
        AssetOutcome.raisedLookup
          "[No normas extracted. Response might need inspection.") ∧
    (0 < (scrape_by_date W D f ids).2 →
      scrape_boletin_and_archive date (scrape_by_date W D f ids).2 =
        AssetOutcome.archived ("daily_scrapes/normas_" ++ date ++ ".csv")) := by
  have hc : (scrape_by_date W D f ids).2 = (ids.filterMap f).length := by
    show ((scrapeLoop W D f ids 0 ids.length []).map evFlushed).flatten.length = _
    rw [scrapeLoop_flushed W D f ids 0 ids.length []]
    simp
  refine ⟨hc, ?_, ?_⟩
  · intro h0
    unfold scrape_boletin_and_archive
    rw [if_pos h0]
  · intro hpos
    unfold scrape_boletin_and_archive
    rw [if_neg (by omega)]

/-- Witness for `C7_zero_scraped_hard_failure`: an all-failing day
raises, a successful day archives. -/
theorem C7_zero_scraped_hard_failure_witness :
    scrape_boletin_and_archive "2025-10-06"
        (scrape_by_date 10 2 (fun _ => none) [1, 2, 3]).2 =
      AssetOutcome.raisedLookup
        "[No normas extracted. Response might need inspection." ∧
    scrape_boletin_and_archive "2025-10-06"
        (scrape_by_date 10 2 (fun n => some (MasterRow.mk (Int.ofNat n) "t" []))
          [1, 2, 3]).2 =
      AssetOutcome.archived "daily_scrapes/normas_2025-10-06.csv" :=
  ⟨(C7_zero_scraped_hard_failure 10 2 (fun _ => none) [1, 2, 3] "2025-10-06").2.1
     (by decide),
   (C7_zero_scraped_hard_failure 10 2
       (fun n => some (MasterRow.mk (Int.ofNat n) "t" [])) [1, 2, 3] "2025-10-06").2.2
     (by decide)⟩


/-! ## Search client (claims C1 and C10) -/

/-- Claim C1 (code behavior at the failing input): a parsed date whose
response page yields no record identifiers and carries no "no results"
phrase makes `search_boletines` return `[]` — the `LookupError` raised
at line 162 is caught by the function's own blanket `except Exception`
handler at line 180 — which is exactly the outcome of the
network-failure path, not an error surfaced to the caller. -/
theorem C1_empty_without_marker_swallowed :
    search_boletines "2025-10-06"
        (HttpResult.ok (BoletinPage.mk [] false false)) =
      ([NetEv.post 6 10 2025], SearchOutcome.returned []) ∧
    search_boletines "2025-10-06" HttpResult.requestError =
      ([NetEv.post 6 10 2025], SearchOutcome.returned []) :=
  ⟨by decide, by decide⟩

/-- Claim C10: a date string that does not parse as `YYYY-MM-DD` makes
`search_boletines` raise `ValueError` with no request issued, while any
parseable date issues the POST and always returns a list (the
fail-closed behavior applies only after the parse). -/
theorem C10_malformed_date_raises (s : String) (resp : HttpResult) :
    (strptime_Ymd s.data = none →
      search_boletines s resp = ([], SearchOutcome.valueErrorRaised)) ∧
    (∀ y m d : Nat, strptime_Ymd s.data = some (y, m, d) →
      (search_boletines s resp).1 = [NetEv.post d m y] ∧
      ∃ ids : List Nat, (search_boletines s resp).2 = SearchOutcome.returned ids) := by
  constructor
  · intro h
    unfold search_boletines
    rw [h]
  · intro y m d h
    unfold search_boletines
    rw [h]
    refine ⟨rfl, ?_⟩
    cases resp with
    | httpStatusError => exact ⟨[], rfl⟩
    | requestError => exact ⟨[], rfl⟩
    | ok page =>
      simp only
      by_cases he : (dedupFirstSeen page.anchorIds).isEmpty = true
      · rw [if_pos he]
        by_cases hm : (page.hasNoSeEncontraron || page.hasSinResultados) = true
        · rw [if_pos hm]
          exact ⟨dedupFirstSeen page.anchorIds, rfl⟩
        · rw [if_neg hm]
          exact ⟨[], rfl⟩
      · rw [if_neg he]
        exact ⟨dedupFirstSeen page.anchorIds, rfl⟩

/-- Witness for `C10_malformed_date_raises`: a slash-format date raises
before any request; a well-formed date posts the request. -/
theorem C10_malformed_date_raises_witness :
    search_boletines "06/10/2025" HttpResult.requestError =
      ([], SearchOutcome.valueErrorRaised) ∧
    ((search_boletines "2025-10-06" HttpResult.requestError).1 =
        [NetEv.post 6 10 2025] ∧
      ∃ ids : List Nat,
        (search_boletines "2025-10-06" HttpResult.requestError).2 =
          SearchOutcome.returned ids) :=
  ⟨(C10_malformed_date_raises "06/10/2025" HttpResult.requestError).1 (by decide),
   (C10_malformed_date_raises "2025-10-06" HttpResult.requestError).2 2025 10 6
     (by decide)⟩

/-! ## Embeddings merge (claim C8) -/

/-- Claim C8: the staging TRUNCATE is submitted only after the MERGE
job succeeded; a failed merge propagates with the warehouse state — in
particular the staging table — left intact for retry. -/
theorem C8_truncate_only_after_merge (embedFn : StageRow → List Int)
    (mOk tOk : Bool) (s : WarehouseState) :
    (BqJob.truncateJob ∈ (master_daily_embeddings_merge embedFn mOk tOk s).executed →
      mOk = true) ∧
    (mOk = false →
      master_daily_embeddings_merge embedFn mOk tOk s = BqRun.mk [BqJob.mergeJob] s true) ∧
    (mOk = false →
      (master_daily_embeddings_merge embedFn mOk tOk s).finalState.staging = s.staging) ∧
    (mOk = true → tOk = false →
      (master_daily_embeddings_merge embedFn mOk tOk s).finalState.staging = s.staging ∧
      (master_daily_embeddings_merge embedFn mOk tOk s).raised = true) := by
  cases mOk <;> cases tOk <;>
    simp [master_daily_embeddings_merge]

/-- Witness for `C8_truncate_only_after_merge` at a concrete state. -/
theorem C8_truncate_only_after_merge_witness :
    ((true : Bool) = true) ∧
    master_daily_embeddings_merge (fun _ => [1]) false true
        (WarehouseState.mk [StageRow.mk 1 "c" "t"] []) =
      BqRun.mk [BqJob.mergeJob] (WarehouseState.mk [StageRow.mk 1 "c" "t"] []) true ∧
    (master_daily_embeddings_merge (fun _ => [1]) true false
        (WarehouseState.mk [StageRow.mk 1 "c" "t"] [])).finalState.staging =
      [StageRow.mk 1 "c" "t"] :=
  ⟨(C8_truncate_only_after_merge (fun _ => [1]) true true
      (WarehouseState.mk [StageRow.mk 1 "c" "t"] [])).1 (by decide),
   (C8_truncate_only_after_merge (fun _ => [1]) false true
      (WarehouseState.mk [StageRow.mk 1 "c" "t"] [])).2.1 rfl,
   ((C8_truncate_only_after_merge (fun _ => [1]) true false
      (WarehouseState.mk [StageRow.mk 1 "c" "t"] [])).2.2.2 rfl rfl).1⟩

/-! ## Extractor date fields (claim C9) -/

/-- Claim C9 (counterexample): when the sanction-date span text does
not normalize, the raw un-normalized text is stored in
`fecha_sancion` — neither a `YYYY-MM-DD` value nor the empty default. -/
theorem C9_counterexample :
    extract_fecha_sancion (some "31/13/2020") = "31/13/2020" ∧
    spec_wellFormedYMD "31/13/2020" = false ∧
    ("31/13/2020" : String) ≠ "" :=
  ⟨by decide, by decide, by decide⟩

/-- Claim C9 (amended): `fecha_boletin` is always either the empty
default or an output of the date normalizer; `fecha_sancion` is the
normalizer's output when the span text normalizes, but falls back to
the raw span text when it does not (and is empty only when the span is
absent). -/
theorem C9_extracted_dates_amended :
    (∀ p : Option (Option String × String),
      extract_fecha_boletin p = "" ∨
        ∃ t : String, convert_date_format t = some (extract_fecha_boletin p)) ∧
    (∀ t c : String, convert_date_format t = some c → c ≠ "" →
      extract_fecha_sancion (some t) = c) ∧
    (∀ t : String, convert_date_format t = none →
      extract_fecha_sancion (some t) = t) ∧
    extract_fecha_sancion none = "" := by
  have tcc : ∀ t : String, truthyConvert t = "" ∨
      ∃ s : String, convert_date_format s = some (truthyConvert t) := by
    intro t
    cases hc : convert_date_format t with
    | none => exact Or.inl (by simp only [truthyConvert, hc])
    | some c =>
      by_cases hce : c ≠ ""
      · simp only [truthyConvert, hc]
        rw [if_pos hce]
        exact Or.inr ⟨t, hc⟩
      · simp only [truthyConvert, hc]
        rw [if_neg hce]
        exact Or.inl rfl
  refine ⟨?_, ?_, ?_, rfl⟩
  · intro p
    rcases p with _ | ⟨link, text⟩
    · exact Or.inl rfl
    · simp only [extract_fecha_boletin]
      by_cases hce : fecha_link_step link ≠ ""
      · rw [if_pos hce]
        rcases link with _ | linkText
        · exact absurd rfl hce
        · exact tcc linkText
      · rw [if_neg hce]
        cases hs : searchDashDate text.data with
        | none => exact Or.inl rfl
        | some mtext => exact tcc (String.mk mtext)
  · intro t c hc hce
    simp only [extract_fecha_sancion, hc]
    rw [if_pos hce]
  · intro t hc
    simp only [extract_fecha_sancion, hc]

/-- Witness for `C9_extracted_dates_amended` at concrete pages. -/
theorem C9_extracted_dates_amended_witness :
    (extract_fecha_boletin (some (some "06-OCT-2025", "x")) = "" ∨
      ∃ t : String,
        convert_date_format t =
          some (extract_fecha_boletin (some (some "06-OCT-2025", "x")))) ∧
    extract_fecha_sancion (some "05/02/2021") = "2021-02-05" ∧
    extract_fecha_sancion (some "not a date") = "not a date" :=
  ⟨C9_extracted_dates_amended.1 (some (some "06-OCT-2025", "x")),
   C9_extracted_dates_amended.2.1 "05/02/2021" "2021-02-05" (by decide) (by decide),
   C9_extracted_dates_amended.2.2.1 "not a date" (by decide)⟩

end InfolegAI
